import Mathlib

/-!
Verification of the resilient product-retrieval and response-normalization
layer of the ai-shopping-agents repository.

The embedding models the two source modules the claims are about:
  * `src/utils/helpers.py`   — `clean_json_response`, `extract_product_id_from_url`
  * `src/tools/rapidapi_tool.py` — `RapidAPIShoppingTool._run`,
    `_parse_response`, `_extract_asin_from_url`, `_get_fallback_data`

Strings are modelled as `List Char` (ASCII fragment: Python's `\s`,
`str.strip`, `str.lower`, `str.title`, `\w` are modelled on their ASCII
behaviour, which covers every literal appearing in the source).  JSON
documents are modelled by the inductive type `Json`; `json.loads` is
modelled by an executable recursive-descent parser `jsonParse` covering the
fragment exercised here (null/bool/integer/string without escapes/array/
object), and the normalizer is additionally parameterized over an arbitrary
parse function so that the structural theorems hold for any parser.
Python exceptions are modelled with `Except Unit`.
-/

abbrev Str := List Char

/-- Shorthand turning a Lean string literal into the `List Char` model. -/
def S (s : String) : Str := s.data

/-- ASCII whitespace: the characters matched by Python's regex `\s` and
stripped by `str.strip()`. -/
def isWsC (c : Char) : Bool :=
  c == ' ' || c == '\t' || c == '\n' || c == '\r' || c == '\x0b' || c == '\x0c'

/-- Drop leading whitespace (Python `lstrip` / regex `\s*` consumption). -/
def dropWs (s : Str) : Str := s.dropWhile isWsC

/-- Drop trailing whitespace. -/
def rstripWs (s : Str) : Str := (dropWs s.reverse).reverse

/-- Python `str.strip()`. -/
def pstrip (s : Str) : Str := rstripWs (dropWs s)

/-- `isPre p s` holds when `p` is a prefix of `s`. -/
def isPre : Str → Str → Bool
  | [], _ => true
  | _ :: _, [] => false
  | p :: ps, c :: cs => p == c && isPre ps cs

/-- `containsSub s p`: `p` occurs as a contiguous substring of `s`
(Python `p in s`). -/
def containsSub : Str → Str → Bool
  | [], p => isPre p []
  | c :: t, p => isPre p (c :: t) || containsSub t p

/-- JSON documents (the value space of Python `json.loads`, with numbers
restricted to the integer fragment used by the repository). -/
inductive Json where
  | null : Json
  | bool (b : Bool) : Json
  | num (n : Int) : Json
  | str (s : Str) : Json
  | arr (elems : List Json) : Json
  | obj (fields : List (Str × Json)) : Json

/-- Python truthiness of a JSON value. -/
def pyTruthy : Json → Bool
  | .null => false
  | .bool b => b
  | .num n => n != 0
  | .str s => !s.isEmpty
  | .arr l => !l.isEmpty
  | .obj l => !l.isEmpty

/-- Key lookup in a JSON object's field list. -/
def lookupField : List (Str × Json) → Str → Option Json
  | [], _ => none
  | (k, v) :: rest, key => if k == key then some v else lookupField rest key

/-- Python `x.get(key, default)`: total on dicts, raises (modelled as
`Except.error`) on every non-dict value. -/
def pyGet : Json → Str → Json → Except Unit Json
  | .obj fs, key, dflt => .ok ((lookupField fs key).getD dflt)
  | _, _, _ => .error ()

/-- Character class `[A-Z0-9]`. -/
def isUpperDigit (c : Char) : Bool :=
  ('A' ≤ c && c ≤ 'Z') || ('0' ≤ c && c ≤ '9')

/-- The regex fragment `([A-Z0-9]{10})`: take exactly ten class characters
from the front of `s`, or fail. -/
def chunk10 (s : Str) : Option Str :=
  if (List.take 10 s).length == 10 && (List.take 10 s).all isUpperDigit then
    some (List.take 10 s)
  else none

/-- `re.search(lit ++ "([A-Z0-9]{10})", s)` for a literal `lit`: scan for
the leftmost position where the literal is followed by ten class
characters, returning the captured group. -/
def searchLitAsin (lit : Str) : Str → Option Str
  | [] => none
  | c :: t =>
    if isPre lit (c :: t) then
      match chunk10 (List.drop lit.length (c :: t)) with
      | some a => some a
      | none => searchLitAsin lit t
    else searchLitAsin lit t

/-- The `(?:/|$)` terminator of the fourth pattern, where `$` (without
`re.MULTILINE`) matches at the end of the string or just before a final
newline. -/
def asinTailOk : Str → Bool
  | [] => true
  | '/' :: _ => true
  | ['\n'] => true
  | _ => false

/-- `re.search("/([A-Z0-9]{10})(?:/|$)", s)`. -/
def searchSlashAsin : Str → Option Str
  | [] => none
  | c :: t =>
    if c == '/' then
      match chunk10 t, asinTailOk (List.drop 10 t) with
      | some a, true => some a
      | _, _ => searchSlashAsin t
    else searchSlashAsin t

/-- `RapidAPIShoppingTool._extract_asin_from_url` (src/tools/rapidapi_tool.py):
`None`/empty URLs yield `None`; otherwise the four ASIN regexes are tried
in order. -/
def toolExtractAsinFromUrl (url : Option Str) : Option Str :=
  match url with
  | none => none
  | some u =>
    if u.isEmpty then none
    else
      match searchLitAsin (S "/dp/") u with
      | some a => some a
      | none =>
        match searchLitAsin (S "/product/") u with
        | some a => some a
        | none =>
          match searchLitAsin (S "asin=") u with
          | some a => some a
          | none => searchSlashAsin u

/-- `extract_product_id_from_url` (src/utils/helpers.py): character-for-
character the same algorithm as the tool's private copy. -/
def helpersExtractProductIdFromUrl (url : Option Str) : Option Str :=
  match url with
  | none => none
  | some u =>
    if u.isEmpty then none
    else
      match searchLitAsin (S "/dp/") u with
      | some a => some a
      | none =>
        match searchLitAsin (S "/product/") u with
        | some a => some a
        | none =>
          match searchLitAsin (S "asin=") u with
          | some a => some a
          | none => searchSlashAsin u

/-- The three-backtick fence marker. -/
def fence3 : Str := ['\x60', '\x60', '\x60']

/-- The fence marker with its language tag (the literal of the regex
pattern removed by the first substitution). -/
def fenceJson : Str := ['\x60', '\x60', '\x60', 'j', 's', 'o', 'n']

/-- Fuelled worker for the first substitution; the fuel only bounds the
recursion depth and is irrelevant whenever it dominates the input length
(`subFenceJsonGo_fuel`). -/
def subFenceJsonGo : Nat → Str → Str
  | 0, s => s
  | _ + 1, [] => []
  | fuel + 1, c :: t =>
    if isPre fenceJson (c :: t) then subFenceJsonGo fuel (dropWs (List.drop 6 t))
    else c :: subFenceJsonGo fuel t

/-- `re.sub(r'<fence>json\s*', '', s)`: remove every non-overlapping
occurrence of the tagged fence marker together with the maximal
whitespace run following it, scanning left to right. -/
def subFenceJson (s : Str) : Str := subFenceJsonGo s.length s

/-- `re.sub(r'<fence>\s*$', '', s)` where `$` (no `re.MULTILINE`) matches
at the end of the string or before a final newline: the leftmost fence
marker followed only by whitespace, together with everything after it, is
removed. -/
def subTrailFence : Str → Str
  | [] => []
  | c :: t =>
    if isPre fence3 (c :: t) && (List.drop 2 t).all isWsC then []
    else c :: subTrailFence t

/-- The cleaning pipeline of `clean_json_response` before any parse
attempt: strip tagged fences, strip a trailing fence, strip whitespace. -/
def cleanCore (s : Str) : Str := pstrip (subTrailFence (subFenceJson s))

/-- Wrap a text in a fenced code block with a language tag: the leading
tagged marker, a newline, the text, a newline and the closing marker. -/
def wrapFence (t : Str) : Str := fenceJson ++ '\n' :: (t ++ '\n' :: fence3)

/-- `re.search(r'\x7b.*\x7d', s, re.DOTALL)`: greedy, so the match runs
from the first opening brace to the last closing brace, provided the
latter comes after the former. -/
def braceSlice (s : Str) : Option Str :=
  match List.findIdx? (fun c => c == '\x7b') s with
  | none => none
  | some i =>
    match List.findIdx? (fun c => c == '\x7d') s.reverse with
    | none => none
    | some rj =>
      if i < s.length - 1 - rj then
        some (List.take (s.length - 1 - rj - i + 1) (List.drop i s))
      else none

/-- The error-shaped result built in the `json.JSONDecodeError` handler of
`clean_json_response`: a fixed message and an empty product list. -/
def errObj : Json :=
  .obj [(S "error", .str (S "Could not parse response")), (S "products", .arr [])]

/-- JSON inter-token whitespace (`json.loads` skips exactly these four). -/
def dropJWs (s : Str) : Str :=
  s.dropWhile (fun c => c == ' ' || c == '\t' || c == '\n' || c == '\r')

/-- Parse the body of a string literal after its opening quote; escape
sequences are outside the modelled fragment. -/
def parseStrBody : Str → Option (Str × Str)
  | [] => none
  | c :: t =>
    if c == '"' then some ([], t)
    else if c == '\\' then none
    else
      match parseStrBody t with
      | some (sv, r) => some (c :: sv, r)
      | none => none

/-- Numeric value of a digit run. -/
def natOfDigits (s : Str) : Nat :=
  s.foldl (fun acc c => acc * 10 + (c.toNat - 48)) 0

mutual

/-- Parse one JSON value, returning it with the unconsumed rest. -/
def parseVal : Nat → Str → Option (Json × Str)
  | 0, _ => none
  | fuel + 1, s0 =>
    match dropJWs s0 with
    | 'n' :: 'u' :: 'l' :: 'l' :: r => some (.null, r)
    | 't' :: 'r' :: 'u' :: 'e' :: r => some (.bool true, r)
    | 'f' :: 'a' :: 'l' :: 's' :: 'e' :: r => some (.bool false, r)
    | '"' :: t =>
      match parseStrBody t with
      | some (sv, r) => some (.str sv, r)
      | none => none
    | '-' :: t =>
      if (t.takeWhile Char.isDigit).isEmpty then none
      else some (.num (-(natOfDigits (t.takeWhile Char.isDigit) : Int)),
        t.dropWhile Char.isDigit)
    | '[' :: t =>
      match dropJWs t with
      | ']' :: r => some (.arr [], r)
      | _ =>
        match parseElems fuel t with
        | some (vs, r) => some (.arr vs, r)
        | none => none
    | '\x7b' :: t =>
      match dropJWs t with
      | '\x7d' :: r => some (.obj [], r)
      | _ =>
        match parseMembers fuel t with
        | some (fs, r) => some (.obj fs, r)
        | none => none
    | c :: t =>
      if c.isDigit then
        some (.num (natOfDigits ((c :: t).takeWhile Char.isDigit)),
          (c :: t).dropWhile Char.isDigit)
      else none
    | [] => none

/-- Parse a comma-separated element list up to the closing bracket. -/
def parseElems : Nat → Str → Option (List Json × Str)
  | 0, _ => none
  | fuel + 1, s =>
    match parseVal fuel s with
    | none => none
    | some (v, r) =>
      match dropJWs r with
      | ',' :: r2 =>
        match parseElems fuel r2 with
        | some (vs, r3) => some (v :: vs, r3)
        | none => none
      | ']' :: r2 => some ([v], r2)
      | _ => none

/-- Parse a comma-separated member list up to the closing brace. -/
def parseMembers : Nat → Str → Option (List (Str × Json) × Str)
  | 0, _ => none
  | fuel + 1, s =>
    match dropJWs s with
    | '"' :: t =>
      match parseStrBody t with
      | none => none
      | some (k, r) =>
        match dropJWs r with
        | ':' :: r2 =>
          match parseVal fuel r2 with
          | none => none
          | some (v, r3) =>
            match dropJWs r3 with
            | ',' :: r4 =>
              match parseMembers fuel r4 with
              | some (fs, r5) => some ((k, v) :: fs, r5)
              | none => none
            | '\x7d' :: r4 => some ([(k, v)], r4)
            | _ => none
        | _ => none
    | _ => none

end

/-- `json.loads` on the modelled fragment: parse one document and reject
trailing non-whitespace data. -/
def jsonParse (s : Str) : Option Json :=
  match parseVal (4 * s.length + 16) s with
  | some (v, r) => if (dropJWs r).isEmpty then some v else none
  | none => none

/-- The decision structure of `clean_json_response` after cleaning,
parameterized over the parse function: the brace-delimited substring is
tried first when one exists, the whole cleaned text is parsed only
otherwise, and a parse failure yields the fixed error object. -/
def afterClean (parse : Str → Option Json) (cleaned : Str) : Json :=
  match braceSlice cleaned with
  | some sub =>
    match parse sub with
    | some v => v
    | none => errObj
  | none =>
    match parse cleaned with
    | some v => v
    | none => errObj

/-- `clean_json_response` (src/utils/helpers.py) on text input,
parameterized over the parse function.  The `isinstance(dict)` early
return concerns non-text input and is outside the text-input model; the
generic `except` arm is unreachable for text inputs since only
`json.loads` can raise here. -/
def cleanJsonResponseWith (parse : Str → Option Json) (s : Str) : Json :=
  afterClean parse (cleanCore s)

/-- `clean_json_response` with the modelled `json.loads`. -/
def cleanJsonResponse (s : Str) : Json :=
  cleanJsonResponseWith jsonParse s

/-- Canonical product record: the dict built by `_parse_response` /
`_get_fallback_data`, with the source's key order `title, price, rating,
image_url, buy_url, asin, product_id, description`.  Field values keep
their dynamic (JSON) type, as in Python. -/
structure Product where
  title : Json
  price : Json
  rating : Json
  image_url : Json
  buy_url : Json
  asin : Json
  product_id : Json
  description : Json

/-- Python `a or b` on JSON values. -/
def pyOr (a b : Json) : Json := if pyTruthy a then a else b

/-- Use a JSON value as a string; slicing/concatenating any other type
raises. -/
def asStr : Json → Except Unit Str
  | .str s => .ok s
  | _ => .error ()

/-- The `asin` / `product_id` dict value (`None` when extraction found
nothing). -/
def asinJson : Option Str → Json
  | none => .null
  | some a => .str a

/-- The sentinel price. -/
def nA : Str := S "N/A"

/-- The ellipsis marker appended to descriptions. -/
def ellipsis : Str := S "..."

/-- `self._extract_asin_from_url(buy_url)` on a dynamic value: falsy
values yield `None` inside the extractor, a truthy string goes through
the regex cascade, and a truthy non-string raises in `re.search`. -/
def asinOfJson (j : Json) : Except Unit (Option Str) :=
  if pyTruthy j then
    match j with
    | .str s => .ok (toolExtractAsinFromUrl (some s))
    | _ => .error ()
  else .ok none

/-- Description of the first backend's records:
`(item.get('product_description', '') or '')[:200] + '...' if
item.get('product_description') else ''`. -/
def descField1 (item : Json) : Except Unit Json :=
  match pyGet item (S "product_description") .null with
  | .error e => .error e
  | .ok cond =>
    if pyTruthy cond then
      match pyGet item (S "product_description") (.str []) with
      | .error e => .error e
      | .ok raw =>
        match asStr (pyOr raw (.str [])) with
        | .error e => .error e
        | .ok s => .ok (.str (List.take 200 s ++ ellipsis))
    else .ok (.str [])

/-- Description of the second and third backends' records:
`item.get(key, '')[:200] + '...' if item.get(key) else ''`. -/
def descField2 (item : Json) (key : Str) : Except Unit Json :=
  match pyGet item key .null with
  | .error e => .error e
  | .ok cond =>
    if pyTruthy cond then
      match pyGet item key (.str []) with
      | .error e => .error e
      | .ok raw =>
        match asStr raw with
        | .error e => .error e
        | .ok s => .ok (.str (List.take 200 s ++ ellipsis))
    else .ok (.str [])

/-- Image URL of the first backend's records:
`item.get('product_photos', [dict()])[0].get('link', '') if
item.get('product_photos') else ''`; indexing anything but a non-empty
list, or `.get` on a non-dict element, raises. -/
def imageField1 (item : Json) : Except Unit Json :=
  match pyGet item (S "product_photos") .null with
  | .error e => .error e
  | .ok cond =>
    if pyTruthy cond then
      match pyGet item (S "product_photos") (.arr [.obj []]) with
      | .error e => .error e
      | .ok photos =>
        match photos with
        | .arr (x :: _) => pyGet x (S "link") (.str [])
        | _ => .error ()
    else .ok (.str [])

/-- Record mapping for `real-time-product-search.p.rapidapi.com`
(`item.get('offer', dict())` is evaluated twice in the source with the
same result, shared here). -/
def extract1 (item : Json) : Except Unit Product :=
  match pyGet item (S "offer") (.obj []) with
  | .error e => .error e
  | .ok offer =>
    match pyGet offer (S "offer_page_url") (.str []) with
    | .error e => .error e
    | .ok buyUrl =>
      match asinOfJson buyUrl with
      | .error e => .error e
      | .ok asin =>
        match pyGet item (S "product_title") (.str []) with
        | .error e => .error e
        | .ok title =>
          match pyGet offer (S "price") (.str nA) with
          | .error e => .error e
          | .ok price =>
            match pyGet item (S "product_rating") (.str nA) with
            | .error e => .error e
            | .ok rating =>
              match imageField1 item with
              | .error e => .error e
              | .ok image =>
                match descField1 item with
                | .error e => .error e
                | .ok descr =>
                  .ok ⟨title, price, rating, image, buyUrl,
                    asinJson asin, asinJson asin, descr⟩

/-- Record mapping for `amazon-product-reviews-keywords.p.rapidapi.com`. -/
def extract2 (item : Json) : Except Unit Product :=
  match pyGet item (S "url") (.str []) with
  | .error e => .error e
  | .ok buyUrl =>
    match asinOfJson buyUrl with
    | .error e => .error e
    | .ok asin =>
      match pyGet item (S "title") (.str []) with
      | .error e => .error e
      | .ok title =>
        match pyGet item (S "price") (.obj []) with
        | .error e => .error e
        | .ok priceObj =>
          match pyGet priceObj (S "current_price") (.str nA) with
          | .error e => .error e
          | .ok price =>
            match pyGet item (S "reviews") (.obj []) with
            | .error e => .error e
            | .ok reviews =>
              match pyGet reviews (S "rating") (.str nA) with
              | .error e => .error e
              | .ok rating =>
                match pyGet item (S "image") (.str []) with
                | .error e => .error e
                | .ok image =>
                  match descField2 item (S "description") with
                  | .error e => .error e
                  | .ok descr =>
                    .ok ⟨title, price, rating, image, buyUrl,
                      asinJson asin, asinJson asin, descr⟩

/-- Record mapping for `shopping-product-search.p.rapidapi.com`. -/
def extract3 (item : Json) : Except Unit Product :=
  match pyGet item (S "link") (.str []) with
  | .error e => .error e
  | .ok buyUrl =>
    match asinOfJson buyUrl with
    | .error e => .error e
    | .ok asin =>
      match pyGet item (S "name") (.str []) with
      | .error e => .error e
      | .ok title =>
        match pyGet item (S "price") (.str nA) with
        | .error e => .error e
        | .ok price =>
          match pyGet item (S "rating") (.str nA) with
          | .error e => .error e
          | .ok rating =>
            match pyGet item (S "image") (.str []) with
            | .error e => .error e
            | .ok image =>
              match descField2 item (S "description") with
              | .error e => .error e
              | .ok descr =>
                .ok ⟨title, price, rating, image, buyUrl,
                  asinJson asin, asinJson asin, descr⟩

/-- `product['price'] != 'N/A'`, negated: a Python string equal to the
sentinel; any non-string price differs from the sentinel. -/
def priceIsNA : Json → Bool
  | .str s => s == nA
  | _ => false

/-- The inclusion test `product['title'] and product['price'] != 'N/A'`. -/
def validProduct (p : Product) : Bool :=
  pyTruthy p.title && !(priceIsNA p.price)

/-- The per-record loop of `_parse_response`: an exception while mapping a
record aborts the loop (the enclosing `try` returns the products
accumulated so far), an invalid record is skipped, a valid one appended. -/
def parseItems (f : Json → Except Unit Product) : List Json → List Product
  | [] => []
  | x :: xs =>
    match f x with
    | .error _ => []
    | .ok p => if validProduct p then p :: parseItems f xs else parseItems f xs

/-- `data.get(key, [])[:8]` with the loop-entry semantics: a non-dict
payload raises in `.get` and a non-list item container raises when sliced
or on the first element's `.get`, in all cases producing the empty
product list. -/
def itemsFromData (data : Json) (key : Str) : List Json :=
  match pyGet data key (.arr []) with
  | .error _ => []
  | .ok (.arr xs) => xs.take 8
  | .ok _ => []

def host1 : Str := S "real-time-product-search.p.rapidapi.com"

def host2 : Str := S "amazon-product-reviews-keywords.p.rapidapi.com"

def host3 : Str := S "shopping-product-search.p.rapidapi.com"

/-- `_parse_response(data, host)`: the host string selects the record
mapping; an unknown host yields no products. -/
def parseResponse (data : Json) (host : Str) : List Product :=
  if host == host1 then parseItems extract1 (itemsFromData data (S "data"))
  else if host == host2 then parseItems extract2 (itemsFromData data (S "products"))
  else if host == host3 then parseItems extract3 (itemsFromData data (S "results"))
  else []

/-- A product dict serialized into the result payload. -/
def productToJson (p : Product) : Json :=
  .obj [(S "title", p.title), (S "price", p.price), (S "rating", p.rating),
    (S "image_url", p.image_url), (S "buy_url", p.buy_url), (S "asin", p.asin),
    (S "product_id", p.product_id), (S "description", p.description)]

/-- The success payload returned on the first usable backend. -/
def successJson (ps : List Product) (host : Str) : Json :=
  .obj [(S "success", .bool true), (S "products", .arr (ps.map productToJson)),
    (S "total_found", .num ps.length), (S "source", .str host)]

/-- ASCII `\w` (regex word character). -/
def isWordChar (c : Char) : Bool := c.isAlpha || c.isDigit || c == '_'

/-- `re.sub(r'[^\w\s]', '', q)`. -/
def sanitizeQuery (q : Str) : Str := q.filter (fun c => isWordChar c || isWsC c)

/-- Python `str.split()` with no argument: split on whitespace runs,
dropping empty pieces. -/
def pySplitWs (s : Str) : List Str :=
  (s.splitOnP isWsC).filter (fun w => !w.isEmpty)

/-- `"+".join(words)`. -/
def joinPlus : List Str → Str
  | [] => []
  | [w] => w
  | w :: ws => w ++ '+' :: joinPlus ws

/-- Python `str.title()` (ASCII): a letter is uppercased after a
non-letter and lowercased after a letter. -/
def pyTitleGo : Bool → Str → Str
  | _, [] => []
  | prevAlpha, c :: t =>
    if c.isAlpha then
      (if prevAlpha then c.toLower else c.toUpper) :: pyTitleGo true t
    else c :: pyTitleGo false t

def pyTitle (s : Str) : Str := pyTitleGo false s

/-- Python `str.lower()` (ASCII). -/
def pyLower (s : Str) : Str := s.map Char.toLower

/-- The canned headphones/earbuds fallback set. -/
def headphoneProducts : List Product :=
  [⟨.str (S "Sony WH-CH720N Wireless Noise Canceling Headphones"),
    .str (S "$149.99"), .str (S "4.4"),
    .str (S "https://via.placeholder.com/300x300?text=Sony+Headphones"),
    .str (S "https://www.amazon.com/dp/B0BXQVQC1W"),
    .str (S "B0BXQVQC1W"), .str (S "B0BXQVQC1W"),
    .str (S "Wireless over-ear headphones with active noise canceling and up to 35 hours battery life.")⟩,
   ⟨.str (S "Apple AirPods (3rd Generation)"),
    .str (S "$179.00"), .str (S "4.6"),
    .str (S "https://via.placeholder.com/300x300?text=Apple+AirPods"),
    .str (S "https://www.amazon.com/dp/B0BDHB9Y8H"),
    .str (S "B0BDHB9Y8H"), .str (S "B0BDHB9Y8H"),
    .str (S "Wireless earbuds with spatial audio, MagSafe charging case, and up to 30 hours total listening time.")⟩]

/-- The canned laptop fallback set. -/
def laptopProducts : List Product :=
  [⟨.str (S "ASUS VivoBook 15 Laptop"),
    .str (S "$599.99"), .str (S "4.3"),
    .str (S "https://via.placeholder.com/300x300?text=ASUS+Laptop"),
    .str (S "https://www.amazon.com/dp/B0863DW238"),
    .str (S "B0863DW238"), .str (S "B0863DW238"),
    .str (S "15.6\" Full HD display, Intel Core i5 processor, 8GB RAM, 512GB SSD.")⟩,
   ⟨.str (S "HP Pavilion 15 Laptop"),
    .str (S "$649.99"), .str (S "4.2"),
    .str (S "https://via.placeholder.com/300x300?text=HP+Laptop"),
    .str (S "https://www.amazon.com/dp/B08XLJ7ZBZ"),
    .str (S "B08XLJ7ZBZ"), .str (S "B08XLJ7ZBZ"),
    .str (S "15.6\" Full HD display, AMD Ryzen 5 processor, 8GB RAM, 256GB SSD.")⟩]

/-- The generic templated fallback entries built from the sanitized query. -/
def genericProducts (q : Str) : List Product :=
  [⟨.str (S "Best " ++ pyTitle q ++ S " - Top Rated"),
    .str (S "$99.99"), .str (S "4.5"),
    .str (S "https://via.placeholder.com/300x300?text=Product+1"),
    .str (S "https://www.amazon.com/s?k=" ++
      joinPlus ((pySplitWs (sanitizeQuery q)).take 3) ++ S "&crid=BESTSELLER"),
    .null, .null,
    .str (S "High-quality " ++ q ++ S " with excellent reviews and fast shipping.")⟩,
   ⟨.str (S "Premium " ++ pyTitle q ++ S " - Amazon Choice"),
    .str (S "$149.99"), .str (S "4.7"),
    .str (S "https://via.placeholder.com/300x300?text=Product+2"),
    .str (S "https://www.amazon.com/s?k=" ++
      joinPlus ((pySplitWs (sanitizeQuery q)).take 3) ++ S "+premium&crid=AMAZONCHOICE"),
    .null, .null,
    .str (S "Premium " ++ q ++ S " with advanced features and excellent customer satisfaction.")⟩]

/-- The keyword dispatch of `_get_fallback_data`. -/
def sampleProducts (q : Str) : List Product :=
  if containsSub (pyLower q) (S "headphones") || containsSub (pyLower q) (S "earbuds") then
    headphoneProducts
  else if containsSub (pyLower q) (S "laptop") then laptopProducts
  else genericProducts q

def fallbackNote : Str :=
  S "API endpoints unavailable, showing sample results with working product links."

def fallbackSource : Str := S "fallback_data"

/-- `_get_fallback_data(query)`: the synthetic payload. -/
def getFallbackData (q : Str) : Json :=
  .obj [(S "success", .bool true),
    (S "products", .arr ((sampleProducts q).map productToJson)),
    (S "total_found", .num (sampleProducts q).length),
    (S "source", .str fallbackSource),
    (S "note", .str fallbackNote)]

/-- The credential-missing payload returned before any request. -/
def credMissingJson : Json :=
  .obj [(S "error", .str (S "RapidAPI key not found")), (S "products", .arr [])]

/-- Outcome of one backend attempt: `exc` models a raised request
exception (timeout, connection error) or an unparsable body;
`resp status body` a completed response whose body parsed as `body`. -/
inductive ReqOutcome where
  | exc : ReqOutcome
  | resp (status : Nat) (body : Json) : ReqOutcome

/-- The fixed backend order of `endpoints_to_try`. -/
def hosts (i : Fin 3) : Str := [host1, host2, host3].get i

/-- One loop iteration of `_run`: a response is used only when its status
is exactly 200 and the parsed product list is non-empty; otherwise the
loop continues. -/
def stepB (o : ReqOutcome) (host : Str) : Option Json :=
  match o with
  | .exc => none
  | .resp st body =>
    if st == 200 then
      if (parseResponse body host).isEmpty then none
      else some (successJson (parseResponse body host) host)
    else none

/-- `RapidAPIShoppingTool._run(query)`, with the environment credential
and the network modelled explicitly.  The second component counts the
HTTP requests issued (one per loop iteration entered). -/
def runTool (key : Option Str) (http : Fin 3 → ReqOutcome) (q : Str) : Json × Nat :=
  match key with
  | none => (credMissingJson, 0)
  | some k =>
    if k.isEmpty then (credMissingJson, 0)
    else
      match stepB (http 0) (hosts 0) with
      | some r => (r, 1)
      | none =>
        match stepB (http 1) (hosts 1) with
        | some r => (r, 2)
        | none =>
          match stepB (http 2) (hosts 2) with
          | some r => (r, 3)
          | none => (getFallbackData q, 3)

/-- Whether backend `i` would be used by `_run`: status 200 and at least
one valid product. -/
def goodReq (http : Fin 3 → ReqOutcome) (i : Fin 3) : Bool :=
  match http i with
  | .exc => false
  | .resp st body => st == 200 && !(parseResponse body (hosts i)).isEmpty

/-- The product list backend `i` would contribute. -/
def reqProducts (http : Fin 3 → ReqOutcome) (i : Fin 3) : List Product :=
  match http i with
  | .exc => []
  | .resp _ body => parseResponse body (hosts i)

/-- A second-backend payload with one valid record, one with an empty
title and one with no price. -/
def fixtureC5 : Json :=
  .obj [(S "products", .arr
    [.obj [(S "title", .str (S "T")),
       (S "price", .obj [(S "current_price", .str (S "$5"))]),
       (S "description", .str (S "abc"))],
     .obj [(S "title", .str (S ""))],
     .obj [(S "title", .str (S "U"))]])]

/-- The product the valid record of `fixtureC5` normalizes to. -/
def prodC5 : Product :=
  ⟨.str (S "T"), .str (S "$5"), .str nA, .str (S ""), .str (S ""),
   .null, .null, .str (S "abc...")⟩

/-- A third-backend payload with one valid record (the spec's end-to-end
fixture). -/
def bodyC3 : Json :=
  .obj [(S "results", .arr
    [.obj [(S "name", .str (S "ASUS VivoBook 15 Laptop")),
       (S "price", .str (S "$599.99"))]])]

/-- Network oracle: first two backends fail, third responds 200 with
`bodyC3`. -/
def httpC3 (i : Fin 3) : ReqOutcome :=
  if i.val == 0 then .exc
  else if i.val == 1 then .resp 500 .null
  else .resp 200 bodyC3

/-- A first-backend payload with one valid record. -/
def bodyC3rt : Json :=
  .obj [(S "data", .arr
    [.obj [(S "product_title", .str (S "X")),
       (S "offer", .obj [(S "price", .str (S "$1"))])]])]

/-- Network oracle: first backend responds 201 (a 2xx status other than
200) with a body holding a valid product, the rest fail. -/
def httpC3bad (i : Fin 3) : ReqOutcome :=
  if i.val == 0 then .resp 201 bodyC3rt else .exc

/-- Number of top-level fields of a JSON object (observer used to
separate differently shaped payloads). -/
def objArity : Json → Nat
  | .obj fs => fs.length
  | _ => 0

/- ===== Theorems ===== -/

theorem dropWs_length_le (s : Str) : (dropWs s).length ≤ s.length := by
  induction s with
  | nil => exact Nat.le_refl _
  | cons c t ih =>
    by_cases h : isWsC c
    · simpa [dropWs, List.dropWhile_cons, h] using Nat.le_trans ih (Nat.le_succ _)
    · simp [dropWs, List.dropWhile_cons, h]

theorem chunk10_shape {s a : Str} (h : chunk10 s = some a) :
    a.length = 10 ∧ a.all isUpperDigit = true := by
  unfold chunk10 at h
  split at h
  · rename_i hc
    cases h
    simp only [Bool.and_eq_true, beq_iff_eq] at hc
    exact ⟨hc.1, hc.2⟩
  · exact Option.noConfusion h

theorem searchLitAsin_shape {lit s a : Str} (h : searchLitAsin lit s = some a) :
    a.length = 10 ∧ a.all isUpperDigit = true := by
  induction s with
  | nil => simp [searchLitAsin] at h
  | cons c t ih =>
    unfold searchLitAsin at h
    split at h
    · cases hc : chunk10 (List.drop lit.length (c :: t)) with
      | none => rw [hc] at h; exact ih h
      | some b => rw [hc] at h; cases h; exact chunk10_shape hc
    · exact ih h

theorem searchSlashAsin_shape {s a : Str} (h : searchSlashAsin s = some a) :
    a.length = 10 ∧ a.all isUpperDigit = true := by
  induction s with
  | nil => simp [searchSlashAsin] at h
  | cons c t ih =>
    unfold searchSlashAsin at h
    split at h
    · split at h
      · rename_i b hchunk htail
        cases h
        exact chunk10_shape hchunk
      · exact ih h
    · exact ih h

/-- Claim C9: for every URL (including `None` and the empty string) the
ASIN extractor returns either `None` or a string of exactly ten characters
drawn from `[A-Z0-9]`, and it is a total function (never raises). -/
theorem claim_C9_asin_shape (url : Option Str) :
    toolExtractAsinFromUrl url = none ∨
      ∃ a, toolExtractAsinFromUrl url = some a ∧
        a.length = 10 ∧ a.all isUpperDigit = true := by
  cases url with
  | none => exact Or.inl rfl
  | some u =>
    by_cases he : u.isEmpty
    · left; simp [toolExtractAsinFromUrl, he]
    · cases h1 : searchLitAsin (S "/dp/") u with
      | some a =>
        right
        exact ⟨a, by simp [toolExtractAsinFromUrl, he, h1], searchLitAsin_shape h1⟩
      | none =>
        cases h2 : searchLitAsin (S "/product/") u with
        | some a =>
          right
          exact ⟨a, by simp [toolExtractAsinFromUrl, he, h1, h2], searchLitAsin_shape h2⟩
        | none =>
          cases h3 : searchLitAsin (S "asin=") u with
          | some a =>
            right
            exact ⟨a, by simp [toolExtractAsinFromUrl, he, h1, h2, h3], searchLitAsin_shape h3⟩
          | none =>
            cases h4 : searchSlashAsin u with
            | some a =>
              right
              exact ⟨a, by simp [toolExtractAsinFromUrl, he, h1, h2, h3, h4], searchSlashAsin_shape h4⟩
            | none => left; simp [toolExtractAsinFromUrl, he, h1, h2, h3, h4]

/-- Claim C10: the two ASIN-extraction implementations — the helper in
`src/utils/helpers.py` and the tool's private method — are extensionally
equal. -/
theorem claim_C10_asin_impls_equal (url : Option Str) :
    helpersExtractProductIdFromUrl url = toolExtractAsinFromUrl url := rfl

theorem drop6_dropWs_length_le (t : Str) :
    (dropWs (List.drop 6 t)).length ≤ t.length :=
  Nat.le_trans (dropWs_length_le _) (by simp)

theorem subFenceJsonGo_fuel {s : Str} {f1 f2 : Nat}
    (h1 : s.length ≤ f1) (h2 : s.length ≤ f2) :
    subFenceJsonGo f1 s = subFenceJsonGo f2 s := by
  induction f1 generalizing s f2 with
  | zero =>
    have : s = [] := List.length_eq_zero.mp (Nat.le_antisymm h1 (Nat.zero_le _))
    subst this
    cases f2 <;> rfl
  | succ f1 ih =>
    cases s with
    | nil => cases f2 <;> rfl
    | cons c t =>
      cases f2 with
      | zero => simp at h2
      | succ f2 =>
        simp only [List.length_cons, Nat.succ_le_succ_iff] at h1 h2
        by_cases hp : isPre fenceJson (c :: t) = true
        · rw [subFenceJsonGo, if_pos hp, subFenceJsonGo, if_pos hp]
          exact ih (Nat.le_trans (drop6_dropWs_length_le t) h1)
            (Nat.le_trans (drop6_dropWs_length_le t) h2)
        · rw [subFenceJsonGo, if_neg hp, subFenceJsonGo, if_neg hp, ih h1 h2]

/-- Claim C1: with the search credential absent, `_run` returns the
credential-missing payload (an `error` field and an empty product list)
with zero HTTP requests issued, and that payload differs from every
payload carrying products — the synthetic fallback and every backend
success payload — for any query, host and product list. -/
theorem claim_C1_credential_missing (http : Fin 3 → ReqOutcome) (q : Str) :
    runTool none http q = (credMissingJson, 0) ∧
      (∃ fs, credMissingJson = .obj fs ∧
        lookupField fs (S "error") = some (.str (S "RapidAPI key not found")) ∧
        lookupField fs (S "products") = some (.arr [])) ∧
      (∀ q2, credMissingJson ≠ getFallbackData q2) ∧
      (∀ ps host, credMissingJson ≠ successJson ps host) := by
  refine ⟨rfl, ⟨_, rfl, rfl, rfl⟩, ?_, ?_⟩
  · intro q2 h
    have h2 := congrArg objArity h
    simp [credMissingJson, getFallbackData, objArity] at h2
  · intro ps host h
    have h2 := congrArg objArity h
    simp [credMissingJson, successJson, objArity] at h2

theorem sampleProducts_length (q : Str) : 1 ≤ (sampleProducts q).length := by
  unfold sampleProducts
  split
  · simp [headphoneProducts]
  · split
    · simp [laptopProducts]
    · simp [genericProducts]

/-- Claim C6: the fallback payload always carries at least one product,
its `source` tag is the fixed synthetic-data marker distinct from all
three backend identifiers, its note is non-empty, and a query containing
"headphones" (after lowercasing) selects exactly the canned headphones
set. -/
theorem claim_C6_fallback (q : Str) :
    1 ≤ (sampleProducts q).length ∧
      getFallbackData q = Json.obj [(S "success", .bool true),
        (S "products", .arr ((sampleProducts q).map productToJson)),
        (S "total_found", .num ((sampleProducts q).length : Int)),
        (S "source", .str fallbackSource),
        (S "note", .str fallbackNote)] ∧
      fallbackNote ≠ [] ∧
      (∀ i : Fin 3, fallbackSource ≠ hosts i) ∧
      (containsSub (pyLower q) (S "headphones") = true →
        sampleProducts q = headphoneProducts) := by
  refine ⟨sampleProducts_length q, rfl, by decide, ?_, ?_⟩
  · intro i
    fin_cases i <;> decide
  · intro h
    unfold sampleProducts
    rw [h]
    simp

/-- Witness for C6 at the query "wireless headphones". -/
theorem claim_C6_witness :
    1 ≤ (sampleProducts (S "wireless headphones")).length ∧
      sampleProducts (S "wireless headphones") = headphoneProducts :=
  ⟨(claim_C6_fallback (S "wireless headphones")).1,
   (claim_C6_fallback (S "wireless headphones")).2.2.2.2 (by decide)⟩

theorem mem_parseItems_valid {f : Json → Except Unit Product} {l : List Json}
    {p : Product} (h : p ∈ parseItems f l) : validProduct p = true := by
  induction l with
  | nil => simp [parseItems] at h
  | cons x xs ih =>
    unfold parseItems at h
    cases hf : f x with
    | error e => rw [hf] at h; simp at h
    | ok p0 =>
      rw [hf] at h
      dsimp only at h
      by_cases hv : validProduct p0 = true
      · rw [if_pos hv] at h
        rcases List.mem_cons.mp h with h1 | h1
        · exact h1 ▸ hv
        · exact ih h1
      · rw [if_neg hv] at h
        exact ih h

/-- Claim C5: every product `_parse_response` emits — for any payload and
any backend — passed the record validation: its title is truthy
(non-empty) and its price is not the sentinel "N/A"; records failing the
check contribute nothing to the list. -/
theorem claim_C5_validation (data : Json) (host : Str) (p : Product)
    (h : p ∈ parseResponse data host) :
    pyTruthy p.title = true ∧ priceIsNA p.price = false := by
  have hv : validProduct p = true := by
    unfold parseResponse at h
    split at h
    · exact mem_parseItems_valid h
    · split at h
      · exact mem_parseItems_valid h
      · split at h
        · exact mem_parseItems_valid h
        · simp at h
  unfold validProduct at hv
  simp only [Bool.and_eq_true, Bool.not_eq_true'] at hv
  exact hv

/-- Witness for C5 on `fixtureC5`: the valid record is kept (and the
title-less and price-less records around it are dropped, the output being
exactly the singleton). -/
theorem claim_C5_witness :
    parseResponse fixtureC5 host2 = [prodC5] ∧
      pyTruthy prodC5.title = true ∧ priceIsNA prodC5.price = false := by
  have hm : prodC5 ∈ parseResponse fixtureC5 host2 := by
    rw [show parseResponse fixtureC5 host2 = [prodC5] from rfl]
    exact List.mem_singleton.mpr rfl
  exact ⟨rfl, claim_C5_validation fixtureC5 host2 prodC5 hm⟩

theorem asStr_ok {v : Json} {s : Str} (h : asStr v = .ok s) : v = .str s := by
  cases v <;> simp_all [asStr]

theorem descField1_shaped {item j : Json} (h : descField1 item = .ok j) :
    ∃ s, j = .str s ∧
      (s = [] ∨ ∃ d, d ≠ [] ∧ s = List.take 200 d ++ ellipsis) := by
  cases item with
  | obj fs =>
    unfold descField1 at h
    cases hl : lookupField fs (S "product_description") with
    | none =>
      simp [pyGet, hl, pyTruthy] at h
      exact ⟨[], h.symm, Or.inl rfl⟩
    | some v =>
      cases hv : pyTruthy v with
      | false =>
        simp [pyGet, hl, hv] at h
        exact ⟨[], h.symm, Or.inl rfl⟩
      | true =>
        have hor : pyOr v (.str []) = v := by unfold pyOr; rw [hv]; rfl
        cases ha : asStr v with
        | error e => simp [pyGet, hl, hv, hor, ha] at h
        | ok s =>
          have hvs : v = .str s := asStr_ok ha
          have hs : s ≠ [] := by
            subst hvs
            simpa [pyTruthy, List.isEmpty_iff] using hv
          simp [pyGet, hl, hv, hor, ha] at h
          exact ⟨List.take 200 s ++ ellipsis, h.symm, Or.inr ⟨s, hs, rfl⟩⟩
  | null => simp [descField1, pyGet] at h
  | bool b => simp [descField1, pyGet] at h
  | num n => simp [descField1, pyGet] at h
  | str s => simp [descField1, pyGet] at h
  | arr l => simp [descField1, pyGet] at h

theorem descField2_shaped {item j : Json} {key : Str}
    (h : descField2 item key = .ok j) :
    ∃ s, j = .str s ∧
      (s = [] ∨ ∃ d, d ≠ [] ∧ s = List.take 200 d ++ ellipsis) := by
  cases item with
  | obj fs =>
    unfold descField2 at h
    cases hl : lookupField fs key with
    | none =>
      simp [pyGet, hl, pyTruthy] at h
      exact ⟨[], h.symm, Or.inl rfl⟩
    | some v =>
      cases hv : pyTruthy v with
      | false =>
        simp [pyGet, hl, hv] at h
        exact ⟨[], h.symm, Or.inl rfl⟩
      | true =>
        cases ha : asStr v with
        | error e => simp [pyGet, hl, hv, ha] at h
        | ok s =>
          have hvs : v = .str s := asStr_ok ha
          have hs : s ≠ [] := by
            subst hvs
            simpa [pyTruthy, List.isEmpty_iff] using hv
          simp [pyGet, hl, hv, ha] at h
          exact ⟨List.take 200 s ++ ellipsis, h.symm, Or.inr ⟨s, hs, rfl⟩⟩
  | null => simp [descField2, pyGet] at h
  | bool b => simp [descField2, pyGet] at h
  | num n => simp [descField2, pyGet] at h
  | str s => simp [descField2, pyGet] at h
  | arr l => simp [descField2, pyGet] at h

theorem extract1_desc {item : Json} {p : Product} (h : extract1 item = .ok p) :
    descField1 item = .ok p.description := by
  unfold extract1 at h
  repeat' split at h
  all_goals cases h
  assumption

theorem extract2_desc {item : Json} {p : Product} (h : extract2 item = .ok p) :
    descField2 item (S "description") = .ok p.description := by
  unfold extract2 at h
  repeat' split at h
  all_goals cases h
  assumption

theorem extract3_desc {item : Json} {p : Product} (h : extract3 item = .ok p) :
    descField2 item (S "description") = .ok p.description := by
  unfold extract3 at h
  repeat' split at h
  all_goals cases h
  assumption

theorem mem_parseItems_exists {f : Json → Except Unit Product} {l : List Json}
    {p : Product} (h : p ∈ parseItems f l) : ∃ x, f x = .ok p := by
  induction l with
  | nil => simp [parseItems] at h
  | cons x xs ih =>
    unfold parseItems at h
    cases hf : f x with
    | error e => rw [hf] at h; simp at h
    | ok p0 =>
      rw [hf] at h
      dsimp only at h
      by_cases hv : validProduct p0 = true
      · rw [if_pos hv] at h
        rcases List.mem_cons.mp h with h1 | h1
        · exact ⟨x, h1 ▸ hf⟩
        · exact ih h1
      · rw [if_neg hv] at h
        exact ih h

theorem shape_length {s : Str}
    (hsh : s = [] ∨ ∃ d, d ≠ [] ∧ s = List.take 200 d ++ ellipsis) :
    s.length ≤ 203 := by
  rcases hsh with rfl | ⟨d, _, rfl⟩
  · simp
  · rw [List.length_append, List.length_take]
    have h1 : min 200 d.length ≤ 200 := Nat.min_le_left _ _
    have h2 : ellipsis.length = 3 := rfl
    omega

/-- Claim C8: every product `_parse_response` emits has a string
description of bounded length (at most 200 source characters plus the
three-character ellipsis marker), and a non-empty description is always
of the form `take 200 source ++ "..."`. -/
theorem claim_C8_description (data : Json) (host : Str) (p : Product)
    (h : p ∈ parseResponse data host) :
    ∃ s, p.description = .str s ∧ s.length ≤ 203 ∧
      (s = [] ∨ ∃ d, d ≠ [] ∧ s = List.take 200 d ++ ellipsis) := by
  unfold parseResponse at h
  split at h
  · obtain ⟨x, hx⟩ := mem_parseItems_exists h
    obtain ⟨s, hs, hsh⟩ := descField1_shaped (extract1_desc hx)
    exact ⟨s, hs, shape_length hsh, hsh⟩
  · split at h
    · obtain ⟨x, hx⟩ := mem_parseItems_exists h
      obtain ⟨s, hs, hsh⟩ := descField2_shaped (extract2_desc hx)
      exact ⟨s, hs, shape_length hsh, hsh⟩
    · split at h
      · obtain ⟨x, hx⟩ := mem_parseItems_exists h
        obtain ⟨s, hs, hsh⟩ := descField2_shaped (extract3_desc hx)
        exact ⟨s, hs, shape_length hsh, hsh⟩
      · simp at h

/-- Witness for C8 on `fixtureC5`: the kept record's description is the
bounded ellipsis form. -/
theorem claim_C8_witness :
    ∃ s, prodC5.description = .str s ∧ s.length ≤ 203 ∧
      (s = [] ∨ ∃ d, d ≠ [] ∧ s = List.take 200 d ++ ellipsis) :=
  claim_C8_description fixtureC5 host2 prodC5
    (by rw [show parseResponse fixtureC5 host2 = [prodC5] from rfl]
        exact List.mem_singleton.mpr rfl)

/-- Counterexample to C8 as stated: a three-character source description
— far below the 200-character bound — still receives the ellipsis marker,
so the marker is not reserved for descriptions longer than the bound. -/
theorem claim_C8_counterexample :
    parseResponse fixtureC5 host2 = [prodC5] ∧
      prodC5.description = .str (S "abc...") ∧
      (S "abc").length ≤ 200 ∧ .str (S "abc...") ≠ Json.str (S "abc") := by
  refine ⟨rfl, rfl, by decide, ?_⟩
  intro h
  have h2 := congrArg (fun j => match j with | Json.str s => s.length | _ => 0) h
  simp [S] at h2

theorem stepB_of_good {http : Fin 3 → ReqOutcome} {i : Fin 3}
    (h : goodReq http i = true) :
    stepB (http i) (hosts i) = some (successJson (reqProducts http i) (hosts i)) := by
  unfold goodReq at h
  unfold stepB reqProducts
  cases hh : http i with
  | exc => rw [hh] at h; simp at h
  | resp st body =>
    rw [hh] at h
    dsimp only at h ⊢
    simp only [Bool.and_eq_true, Bool.not_eq_true'] at h
    rw [if_pos h.1, if_neg (by simp [h.2])]

theorem stepB_of_bad {http : Fin 3 → ReqOutcome} {i : Fin 3}
    (h : goodReq http i = false) :
    stepB (http i) (hosts i) = none := by
  unfold goodReq at h
  unfold stepB
  cases hh : http i with
  | exc => rfl
  | resp st body =>
    rw [hh] at h
    dsimp only at h ⊢
    by_cases h200 : (st == 200) = true
    · rw [h200] at h
      simp only [Bool.true_and] at h
      have h2 : (parseResponse body (hosts i)).isEmpty = true := by simpa using h
      rw [if_pos h200, if_pos h2]
    · rw [if_neg h200]

/-- Claim C3 (amended: the code checks for status exactly 200, not any
2xx): with a non-empty key, `_run` walks the backends in list order; the
first backend answering with status 200 and a non-empty valid-product
list determines the result — exactly that backend's list, no merging —
after exactly `i+1` requests; if no backend does, the fallback payload is
returned after all three requests. -/
theorem claim_C3_first_success (k : Str) (http : Fin 3 → ReqOutcome) (q : Str)
    (hk : k ≠ []) :
    (∀ i : Fin 3, (∀ j : Fin 3, j < i → goodReq http j = false) →
      goodReq http i = true →
      runTool (some k) http q =
        (successJson (reqProducts http i) (hosts i), (i : Nat) + 1)) ∧
    ((∀ i : Fin 3, goodReq http i = false) →
      runTool (some k) http q = (getFallbackData q, 3)) := by
  have hke : ¬(k.isEmpty = true) := by simp [List.isEmpty_iff, hk]
  constructor
  · intro i hprev hi
    fin_cases i
    · unfold runTool
      dsimp only
      rw [if_neg hke, stepB_of_good (show goodReq http 0 = true from hi)]
      rfl
    · unfold runTool
      dsimp only
      rw [if_neg hke, stepB_of_bad (hprev 0 (by decide)),
        stepB_of_good (show goodReq http 1 = true from hi)]
      rfl
    · unfold runTool
      dsimp only
      rw [if_neg hke, stepB_of_bad (hprev 0 (by decide)),
        stepB_of_bad (hprev 1 (by decide)),
        stepB_of_good (show goodReq http 2 = true from hi)]
      rfl
  · intro hall
    unfold runTool
    dsimp only
    rw [if_neg hke, stepB_of_bad (hall 0), stepB_of_bad (hall 1),
      stepB_of_bad (hall 2)]

/-- Witness for C3 (amended) on the spec's end-to-end fixture: first two
backends fail, the third returns one valid record and is used after three
requests. -/
theorem claim_C3_witness :
    runTool (some (S "k")) httpC3 (S "gaming laptop under $1000") =
      (successJson (reqProducts httpC3 2) (hosts 2), 3) := by
  have h := (claim_C3_first_success (S "k") httpC3
    (S "gaming laptop under $1000") (by decide)).1 2 ?_ ?_
  · exact h
  · intro j hj
    fin_cases j
    · decide
    · decide
    · exact absurd hj (by decide)
  · decide

/-- Counterexample to C3 as stated: backend 0 answers with the 2xx status
201 and a body yielding a valid product, so per the claim `_run` should
return that backend's list; the code however requires status exactly 200,
skips the backend, and ends in the fallback payload. -/
theorem claim_C3_counterexample :
    (parseResponse bodyC3rt host1).isEmpty = false ∧
      runTool (some (S "k")) httpC3bad (S "q") = (getFallbackData (S "q"), 3) ∧
      getFallbackData (S "q") ≠
        successJson (parseResponse bodyC3rt host1) host1 := by
  refine ⟨rfl, rfl, ?_⟩
  intro h
  have h2 := congrArg objArity h
  simp [getFallbackData, successJson, objArity] at h2

/-- Claim C2 (amended: the code tries the brace-delimited substring
FIRST): for any parse function, when the cleaned text contains a
brace-delimited substring the normalizer's result is that substring's
parse — even if the whole cleaned text would parse — and the whole
cleaned text is parsed directly only when no brace-delimited substring
exists. -/
theorem claim_C2_brace_first (parse : Str → Option Json) (s : Str) :
    (∀ sub v, braceSlice (cleanCore s) = some sub → parse sub = some v →
      cleanJsonResponseWith parse s = v) ∧
    (braceSlice (cleanCore s) = none → ∀ v, parse (cleanCore s) = some v →
      cleanJsonResponseWith parse s = v) := by
  constructor
  · intro sub v hb hv
    unfold cleanJsonResponseWith afterClean
    rw [hb]
    dsimp only
    rw [hv]
  · intro hb v hv
    unfold cleanJsonResponseWith afterClean
    rw [hb]
    dsimp only
    rw [hv]

/-- Witness for C2 (amended) on a top-level array containing an object:
the brace substring wins. -/
theorem claim_C2_witness :
    cleanJsonResponseWith jsonParse (S "[\x7b\"a\": 1\x7d]") =
      .obj [(S "a", .num 1)] :=
  (claim_C2_brace_first jsonParse (S "[\x7b\"a\": 1\x7d]")).1
    (S "\x7b\"a\": 1\x7d") (.obj [(S "a", .num 1)]) rfl rfl

/-- Counterexample to C2 as stated: the cleaned text `[ {"a": 1} ]` is
valid JSON as a whole (a top-level array), yet the normalizer returns the
inner object extracted between the braces, not the whole-document
value — the brace extraction runs before, not after, the direct parse. -/
theorem claim_C2_counterexample :
    jsonParse (cleanCore (S "[\x7b\"a\": 1\x7d]")) =
      some (.arr [.obj [(S "a", .num 1)]]) ∧
    cleanJsonResponse (S "[\x7b\"a\": 1\x7d]") = .obj [(S "a", .num 1)] ∧
    Json.obj [(S "a", .num 1)] ≠ .arr [.obj [(S "a", .num 1)]] :=
  ⟨rfl, rfl, fun h => Json.noConfusion h⟩

/-- Claim C4 (amended: the raw input is NOT preserved in the result):
for any parse function and any input whose parse attempts all fail, the
normalizer returns the fixed error object — an `error` field with a
constant message and an empty product list — and, being a total
function, never raises. -/
theorem claim_C4_error_shape (parse : Str → Option Json) (s : Str)
    (h1 : ∀ sub, braceSlice (cleanCore s) = some sub → parse sub = none)
    (h2 : braceSlice (cleanCore s) = none → parse (cleanCore s) = none) :
    cleanJsonResponseWith parse s = errObj ∧
      ∃ fs, errObj = .obj fs ∧
        lookupField fs (S "error") = some (.str (S "Could not parse response")) ∧
        lookupField fs (S "products") = some (.arr []) := by
  refine ⟨?_, _, rfl, rfl, rfl⟩
  unfold cleanJsonResponseWith afterClean
  cases hb : braceSlice (cleanCore s) with
  | some sub =>
    dsimp only
    rw [h1 sub hb]
  | none =>
    dsimp only
    rw [h2 hb]

/-- Witness for C4 (amended) on non-JSON prose without braces. -/
theorem claim_C4_witness :
    cleanJsonResponseWith jsonParse (S "hello") = errObj ∧
      ∃ fs, errObj = .obj fs ∧
        lookupField fs (S "error") = some (.str (S "Could not parse response")) ∧
        lookupField fs (S "products") = some (.arr []) :=
  claim_C4_error_shape jsonParse (S "hello")
    (fun _ h => Option.noConfusion h) (fun _ => rfl)

/-- Counterexample to C4 as stated: two different unparseable raw inputs
produce the very same result value, and the fixed error message does not
contain the input text — so the original raw text is not preserved in
the returned value. -/
theorem claim_C4_counterexample :
    cleanJsonResponse (S "hello") = errObj ∧
      cleanJsonResponse (S "some raw prose") = errObj ∧
      containsSub (S "Could not parse response") (S "hello") = false :=
  ⟨rfl, rfl, by decide⟩

theorem isPre_append {p s u : Str} (h : p.length ≤ s.length) :
    isPre p (s ++ u) = isPre p s := by
  induction p generalizing s with
  | nil => simp [isPre]
  | cons pc pt ih =>
    cases s with
    | nil => simp at h
    | cons sc st =>
      simp only [List.cons_append, isPre]
      exact congrArg (fun b => pc == sc && b) (ih (Nat.le_of_succ_le_succ h))

theorem isPre_of_isPre_append {p q s : Str} (h : isPre (p ++ q) s = true) :
    isPre p s = true := by
  induction p generalizing s with
  | nil => simp [isPre]
  | cons pc pt ih =>
    cases s with
    | nil => simp [isPre] at h
    | cons sc st =>
      simp only [List.cons_append, isPre, Bool.and_eq_true] at h ⊢
      exact ⟨h.1, ih h.2⟩

theorem not_contains_fenceJson {t : Str} (h : containsSub t fence3 = false) :
    containsSub t fenceJson = false := by
  induction t with
  | nil => rfl
  | cons c t ih =>
    simp only [containsSub, Bool.or_eq_false_iff] at h ⊢
    refine ⟨?_, ih h.2⟩
    cases hp : isPre fenceJson (c :: t)
    · rfl
    · exact absurd (isPre_of_isPre_append (p := fence3) (q := ['j', 's', 'o', 'n']) hp)
        (by simp [h.1])

theorem containsSub_dropWs {u p : Str} (h : containsSub u p = false) :
    containsSub (dropWs u) p = false := by
  induction u with
  | nil => simpa [dropWs] using h
  | cons c t ih =>
    simp only [containsSub, Bool.or_eq_false_iff] at h
    unfold dropWs
    rw [List.dropWhile_cons]
    by_cases hw : isWsC c = true
    · rw [if_pos hw]
      exact ih h.2
    · rw [if_neg hw]
      simp only [containsSub, Bool.or_eq_false_iff]
      exact ⟨h.1, h.2⟩

theorem not_contains_fj_append {t : Str} (h : containsSub t fence3 = false) :
    containsSub (t ++ '\n' :: fence3) fenceJson = false := by
  induction t with
  | nil => decide
  | cons c t ih =>
    simp only [containsSub, Bool.or_eq_false_iff] at h
    simp only [List.cons_append, containsSub, Bool.or_eq_false_iff]
    refine ⟨?_, ih h.2⟩
    rcases t with _ | ⟨a, _ | ⟨b, _ | ⟨d, _ | ⟨e, _ | ⟨f, _ | ⟨g, t2⟩⟩⟩⟩⟩⟩
    · simp [isPre, fenceJson, fence3,
        (show ('\x60' == '\n') = false by decide)]
    · simp [isPre, fenceJson, fence3,
        (show ('\x60' == '\n') = false by decide)]
    · simp [isPre, fenceJson, fence3,
        (show ('j' == '\n') = false by decide)]
    · simp [isPre, fenceJson, fence3,
        (show ('s' == '\n') = false by decide)]
    · simp [isPre, fenceJson, fence3,
        (show ('o' == '\n') = false by decide)]
    · simp [isPre, fenceJson, fence3,
        (show ('n' == '\n') = false by decide)]
    · have hlen : fenceJson.length ≤ (c :: a :: b :: d :: e :: f :: g :: t2).length := by
        simp [fenceJson]
      show isPre fenceJson
        ((c :: a :: b :: d :: e :: f :: g :: t2) ++ '\n' :: fence3) = false
      rw [isPre_append hlen]
      cases hp : isPre fenceJson (c :: a :: b :: d :: e :: f :: g :: t2)
      · rfl
      · exact absurd (isPre_of_isPre_append (p := fence3) (q := ['j', 's', 'o', 'n']) hp)
          (by simp [h.1])

theorem subFenceJsonGo_of_not_contains {f : Nat} {s : Str}
    (h : containsSub s fenceJson = false) : subFenceJsonGo f s = s := by
  induction f generalizing s with
  | zero => rfl
  | succ f ih =>
    cases s with
    | nil => rfl
    | cons c t =>
      simp only [containsSub, Bool.or_eq_false_iff] at h
      simp only [subFenceJsonGo]
      rw [if_neg (by simp [h.1]), ih h.2]

theorem subFenceJson_of_not_contains {s : Str}
    (h : containsSub s fenceJson = false) : subFenceJson s = s :=
  subFenceJsonGo_of_not_contains h

theorem subTrailFence_of_not_contains {s : Str}
    (h : containsSub s fence3 = false) : subTrailFence s = s := by
  induction s with
  | nil => rfl
  | cons c t ih =>
    simp only [containsSub, Bool.or_eq_false_iff] at h
    simp only [subTrailFence]
    rw [if_neg (by simp [h.1]), ih h.2]

theorem subTrailFence_append_fence {v : Str} (h : containsSub v fence3 = false) :
    subTrailFence (v ++ '\n' :: fence3) = v ++ ['\n'] := by
  induction v with
  | nil => rfl
  | cons c v ih =>
    simp only [containsSub, Bool.or_eq_false_iff] at h
    simp only [List.cons_append, subTrailFence]
    rw [if_neg ?hcond]
    case hcond =>
      rcases v with _ | ⟨a, _ | ⟨b, v2⟩⟩
      · simp [isPre, fence3, List.nil_append,
          (show ('\x60' == '\n') = false by decide)]
      · simp [isPre, fence3, List.cons_append, List.nil_append,
          (show ('\x60' == '\n') = false by decide)]
      · intro hc
        rw [Bool.and_eq_true] at hc
        have hlen : fence3.length ≤ (c :: a :: b :: v2).length := by simp [fence3]
        have hpre : isPre fence3 ((c :: a :: b :: v2) ++ '\n' :: fence3) = true := hc.1
        rw [isPre_append hlen] at hpre
        exact absurd hpre (by simp [h.1])
    exact congrArg (List.cons c) (ih h.2)

theorem dropWs_append (t u : Str) :
    dropWs (t ++ u) = if (dropWs t).isEmpty then dropWs u else dropWs t ++ u := by
  induction t with
  | nil => simp [dropWs]
  | cons c t ih =>
    cases hw : isWsC c with
    | true =>
      simp only [List.cons_append, dropWs, List.dropWhile_cons, hw, if_true]
      exact ih
    | false => simp [List.cons_append, dropWs, List.dropWhile_cons, hw]

theorem dropWs_idem (s : Str) : dropWs (dropWs s) = dropWs s := by
  induction s with
  | nil => rfl
  | cons c t ih =>
    cases hw : isWsC c with
    | true =>
      simp only [dropWs, List.dropWhile_cons, hw, if_true]
      exact ih
    | false => simp [dropWs, List.dropWhile_cons, hw]

theorem rstripWs_append_nl (x : Str) : rstripWs (x ++ ['\n']) = rstripWs x := by
  unfold rstripWs
  rw [List.reverse_append]
  simp [dropWs, List.dropWhile_cons, (show isWsC '\n' = true by decide)]

theorem ws_no_backtick {c : Char} (h : isWsC c = true) : ('\x60' == c) = false := by
  simp only [isWsC, Bool.or_eq_true, beq_iff_eq] at h
  rcases h with ((((h | h) | h) | h) | h) | h <;> subst h <;> decide

theorem not_contains_fence3_of_allWs {t : Str} (h : ∀ c ∈ t, isWsC c = true) :
    containsSub t fence3 = false := by
  induction t with
  | nil => rfl
  | cons c t ih =>
    simp only [containsSub, Bool.or_eq_false_iff]
    constructor
    · have hc := ws_no_backtick (h c (List.mem_cons_self c t))
      simp [isPre, fence3, hc]
    · exact ih (fun x hx => h x (List.mem_cons_of_mem c hx))

theorem subFenceJson_wrapFence {t : Str} (h : containsSub t fence3 = false) :
    subFenceJson (wrapFence t) = dropWs (t ++ '\n' :: fence3) := by
  have hlen : (wrapFence t).length = t.length + 11 + 1 := by
    simp [wrapFence, fenceJson, fence3]
  unfold subFenceJson
  rw [hlen]
  show subFenceJsonGo (t.length + 11) (dropWs (t ++ '\n' :: fence3)) =
    dropWs (t ++ '\n' :: fence3)
  exact subFenceJsonGo_of_not_contains
    (containsSub_dropWs (not_contains_fj_append h))

theorem cleanCore_wrapFence {t : Str} (h : containsSub t fence3 = false) :
    cleanCore (wrapFence t) = cleanCore t := by
  have hfj : containsSub t fenceJson = false := not_contains_fenceJson h
  unfold cleanCore
  rw [subFenceJson_wrapFence h, subFenceJson_of_not_contains hfj,
    subTrailFence_of_not_contains h]
  rw [dropWs_append t ('\n' :: fence3)]
  by_cases he : (dropWs t).isEmpty = true
  · rw [if_pos he]
    rw [show dropWs ('\n' :: fence3) = fence3 from rfl]
    rw [show subTrailFence fence3 = [] from rfl]
    have h0 : dropWs t = [] := List.isEmpty_iff.mp he
    unfold pstrip
    rw [h0]
    rfl
  · rw [if_neg he]
    rw [subTrailFence_append_fence (containsSub_dropWs h)]
    unfold pstrip
    rw [dropWs_append (dropWs t) ['\n'], dropWs_idem, if_neg he, rstripWs_append_nl]

/-- Claim C7 (amended: restricted to texts that do not themselves contain
the triple-backtick marker): for any parse function and any such text,
wrapping it in a fenced code block with a language tag normalizes to
exactly the same result as the unwrapped text. -/
theorem claim_C7_fence_idempotent (parse : Str → Option Json) (t : Str)
    (h : containsSub t fence3 = false) :
    cleanJsonResponseWith parse (wrapFence t) = cleanJsonResponseWith parse t := by
  unfold cleanJsonResponseWith
  rw [cleanCore_wrapFence h]

/-- Witness for C7 (amended) on a plain JSON object text. -/
theorem claim_C7_witness :
    containsSub (S "\x7b\"a\": 1\x7d") fence3 = false ∧
      cleanJsonResponseWith jsonParse (wrapFence (S "\x7b\"a\": 1\x7d")) =
        cleanJsonResponseWith jsonParse (S "\x7b\"a\": 1\x7d") :=
  ⟨by decide, claim_C7_fence_idempotent jsonParse (S "\x7b\"a\": 1\x7d") (by decide)⟩

/-- Counterexample to C7 as stated: the text `[1] <fence>` parses
unwrapped to the array `[1]`, but its wrapped form normalizes to the
error object, because the trailing-fence substitution consumes the text's
own fence marker differently in the two settings. -/
theorem claim_C7_counterexample :
    cleanJsonResponse (S "[1] \x60\x60\x60") = .arr [.num 1] ∧
      cleanJsonResponse (wrapFence (S "[1] \x60\x60\x60")) = errObj ∧
      Json.arr [.num 1] ≠ errObj :=
  ⟨rfl, rfl, fun h => Json.noConfusion h⟩

/-- Witness for C1 at a concrete network oracle and query. -/
theorem claim_C1_witness :
    runTool none httpC3 (S "q") = (credMissingJson, 0) ∧
      credMissingJson ≠ getFallbackData (S "q") :=
  ⟨(claim_C1_credential_missing httpC3 (S "q")).1,
   (claim_C1_credential_missing httpC3 (S "q")).2.2.1 (S "q")⟩
